import Mathlib

/-!
Shallow embedding of the bittensor validator's evaluate-score-commit loop
(`bittensor/_neuron/text/core_validator/validator_impl.py`) and of the
subtensor chain interface (`bittensor/_subtensor/subtensor_impl.py`).

Per-uid score tensors are embedded as lists of rationals indexed by uid;
losses and utilities are rationals.
-/

/-! ### Nucleus.forward scoring (validator_impl.py, lines 362-384) -/

/-- Embeds the score vector returned by `Nucleus.forward`: the code sets
`shapely_scores = torch.zeros(metagraph.n)`, then for each queried uid
(the keys of `masked_contexts`) stores
`shapely_score = unmasked_loss - masked_loss`, and finally returns
`-shapely_scores`.  Hence the returned entry at a queried uid is
`masked_loss uid - unmasked_loss`, and `0` at every non-queried uid. -/
def forward_scores (n : Nat) (queried : List Nat) (unmasked_loss : ℚ)
    (masked_loss : Nat → ℚ) : List ℚ :=
  (List.range n).map fun uid =>
    if uid ∈ queried then -(unmasked_loss - masked_loss uid) else 0

/-- Higher-is-better utility of an aggregate whose decoding loss is `l`.
The code's only quality measure for a joined response context is the
cross-entropy `get_target_loss`, which training minimizes (lower = better
aggregate); the corresponding higher-is-better utility is its negation. -/
def utilityOfLoss (l : ℚ) : ℚ := -l

/-! ### Neuron.run_epoch stepping loop (validator_impl.py, lines 158-188) -/

/-- Embeds line 177 of `Neuron.run_epoch`: `scores = scores / scores.sum()`. -/
def normalize_scores (s : List ℚ) : List ℚ := s.map fun x => x / s.sum

/-- Elementwise sum of a stack of `n`-length score vectors. -/
def sum_stack (n : Nat) (h : List (List ℚ)) : List ℚ :=
  h.foldr (fun v acc => List.zipWith (· + ·) v acc) (List.replicate n 0)

/-- Embeds line 179 of `Neuron.run_epoch`:
`moving_avg_scores = torch.stack(score_history).mean(0)` — the elementwise
mean over every vector appended to `score_history` so far. -/
def mean_stack (n : Nat) (h : List (List ℚ)) : List ℚ :=
  (sum_stack n h).map fun x => x / (h.length : ℚ)

/-- Embeds one iteration of the epoch stepping loop (lines 175-179):
normalize the step's raw scores, append them to `score_history`, and
recompute `moving_avg_scores` fresh as the mean over the whole history. -/
def epoch_step (n : Nat) (hist : List (List ℚ)) (raw : List ℚ) :
    List (List ℚ) × List ℚ :=
  let scores := normalize_scores raw
  let hist' := hist ++ [scores]
  (hist', mean_stack n hist')

/-- Embeds the stepping loop of `Neuron.run_epoch`: fold `epoch_step` over
the per-step raw score vectors returned by the nucleus, starting from the
empty `score_history` created at line 146. -/
def run_epoch_loop (n : Nat) (steps : List (List ℚ)) :
    List (List ℚ) × List ℚ :=
  steps.foldl (fun st raw => epoch_step n st.1 raw) ([], mean_stack n [])

/-! ### Committing phase: top-K selection (validator_impl.py, lines 190-198) -/

/-- Ordering used to model top-K selection over a score vector `m`:
`i` precedes `j` when `i`'s score is higher, ties broken by lowest uid. -/
def scoreGE (m : List ℚ) (i j : Nat) : Prop :=
  m.getD j 0 < m.getD i 0 ∨ (m.getD i 0 = m.getD j 0 ∧ i ≤ j)

instance (m : List ℚ) : DecidableRel (scoreGE m) := fun i j => by
  unfold scoreGE; infer_instance

instance (m : List ℚ) : IsTotal Nat (scoreGE m) := by
  constructor
  intro i j
  rcases lt_trichotomy (m.getD i 0) (m.getD j 0) with h | h | h
  · exact Or.inr (Or.inl h)
  · rcases Nat.le_total i j with hij | hij
    · exact Or.inl (Or.inr ⟨h, hij⟩)
    · exact Or.inr (Or.inr ⟨h.symm, hij⟩)
  · exact Or.inl (Or.inl h)

instance (m : List ℚ) : IsTrans Nat (scoreGE m) := by
  constructor
  intro a b c hab hbc
  rcases hab with hab | ⟨hab, hab2⟩
  · rcases hbc with hbc | ⟨hbc, _⟩
    · exact Or.inl (hbc.trans hab)
    · exact Or.inl (hbc ▸ hab)
  · rcases hbc with hbc | ⟨hbc, hbc2⟩
    · exact Or.inl (hab ▸ hbc)
    · exact Or.inr ⟨hab.trans hbc, hab2.trans hbc2⟩

/-- Modelled from the spec: `bittensor.unbiased_topk` (called at line 193 but
not under `src/`) — "selects top-K peers by score" with "deterministic
tie-break by lowest uid" (spec sections 4.3-4.4).  Returns the scores and
uids of the `k` largest entries of `m`. -/
def unbiased_topk (m : List ℚ) (k : Nat) : List ℚ × List Nat :=
  let uids := (List.insertionSort (scoreGE m) (List.range m.length)).take k
  (uids.map (fun u => m.getD u 0), uids)

/-- WeightVector handed to the ledger commit: parallel uid/weight lists. -/
structure WeightVector where
  uids : List Nat
  weights : List ℚ
  deriving DecidableEq, Repr

/-- Embeds lines 190-198 of `Neuron.run_epoch`: the weight vector handed to
`subtensor.set_weights` is `unbiased_topk(moving_avg_scores,
k = min(n_topk_peer_weights, metagraph.n))`, applied directly to the moving
average — no filtering step of any kind precedes the selection (the
`moving_avg_scores > 0.0` mask at line 185 only feeds the step log). -/
def run_epoch_commit (moving_avg_scores : List ℚ)
    (n_topk_peer_weights : Nat) : WeightVector :=
  let k := min n_topk_peer_weights moving_avg_scores.length
  let tk := unbiased_topk moving_avg_scores k
  ⟨tk.2, tk.1⟩

/-- Embeds the Committing phase submission of `Neuron.run_epoch` (lines
190-198) one level up: after the top-K derivation, `subtensor.set_weights`
is called unconditionally — there is no branch that skips the submission,
whatever the moving average or the peer count.  A `none` result would model
a skipped submission; the code always produces `some`. -/
def run_epoch_submitted_commit (moving_avg_scores : List ℚ)
    (n_topk_peer_weights : Nat) : Option WeightVector :=
  some (run_epoch_commit moving_avg_scores n_topk_peer_weights)

/-- Embeds the stepping loop of `Neuron.run_epoch` as a step relation: a
configuration pairs the step inputs still pending with the current
`score_history`; each step consumes one raw score vector and appends its
normalized mapping (lines 159-179). -/
inductive StepsRel (n : Nat) :
    List (List ℚ) × List (List ℚ) → List (List ℚ) → Prop
  | done (h : List (List ℚ)) : StepsRel n ([], h) h
  | step {s : List ℚ} {ins : List (List ℚ)} {h hfin : List (List ℚ)} :
      StepsRel n (ins, h ++ [normalize_scores s]) hfin →
      StepsRel n (s :: ins, h) hfin

/-! ### Peer selection on an empty pool (validator_impl.py, lines 285-312) -/

/-- Embeds line 291 of `Nucleus.forward`:
`torch.cat([self.gates[uid](...) for uid in metagraph.uids.tolist()], axis=1)`.
`torch.cat` raises a RuntimeError when given an empty list of tensors, so
an empty uid set yields an error, never an empty routing-weight tensor. -/
def routing_weights_cat (uids : List Nat) (gate_out : Nat → ℚ) :
    Except String (List ℚ) :=
  if uids.isEmpty then
    Except.error "torch.cat(): expected a non-empty list of Tensors"
  else
    Except.ok (uids.map gate_out)

/-! ### Nucleus gate table (validator_impl.py, lines 238-241, 243-256) -/

/-- Embeds `Nucleus.__init__` lines 238-241: the SGMOE gate dict is
preallocated with one gate per uid in `range(2000)` and is never written
again afterwards; the embedding keeps its key set. -/
def gates_keys : List Nat := List.range 2000

/-- Embeds a Python dict read `self.gates[uid]`: a missing key raises
KeyError, and a read never inserts anything, so the (unchanged) table is
returned alongside. -/
def gate_lookup (gates : List Nat) (uid : Nat) : Except String (List Nat) :=
  if uid ∈ gates then Except.ok gates else Except.error "KeyError"

/-- Embeds the gate reads of `Nucleus.forward` line 291: `self.gates[uid]`
for every uid of the metagraph, threading the table through; the first
missing uid raises. -/
def forward_gate_reads (gates : List Nat) :
    List Nat → Except String (List Nat)
  | [] => Except.ok gates
  | uid :: rest =>
    match gate_lookup gates uid with
    | Except.ok g => forward_gate_reads g rest
    | Except.error e => Except.error e

/-- Embeds `Nucleus.reset_weights` lines 243-256: the loop reinitializes
`self.gates[uid]` for `uid in range(2000)` only — the metagraph's uid set
is never consulted. -/
def reset_weights (gates : List Nat) : Except String (List Nat) :=
  forward_gate_reads gates (List.range 2000)

/-! ### Retry-wrapped chain queries (subtensor_impl.py, lines 796-858, 1550-1560) -/

/-- Modelled from the spec: the `@retry(delay=2, tries=3, backoff=2,
max_delay=4)` decorator of the external `retry` library, wrapped around
every `make_substrate_call_with_retry` in `subtensor_impl.py` (the library
itself is not under `src/`; spec section 4.4 gives its policy).  `op k` is
the outcome of attempt number `k`; on failure with more tries left the
current delay is slept and then updated to `min (delay * backoff)
max_delay`.  Returns the surfaced outcome, the number of attempts made,
and the list of delays slept between attempts. -/
def retry_go (op : Nat → Except String α) (backoff max_delay : Nat) :
    Nat → Nat → Nat → List Nat → Except String α × Nat × List Nat
  | 0, _, attempts, delays => (Except.error "", attempts, delays)
  | t + 1, d, attempts, delays =>
    match op attempts, t with
    | Except.ok a, _ => (Except.ok a, attempts + 1, delays)
    | Except.error e, 0 => (Except.error e, attempts + 1, delays)
    | Except.error _, tt + 1 =>
      retry_go op backoff max_delay (tt + 1) (min (d * backoff) max_delay)
        (attempts + 1) (delays ++ [d])

/-- Embeds the shape shared by every `make_substrate_call_with_retry` in
`subtensor_impl.py`: the substrate call wrapped with
`@retry(delay=2, tries=3, backoff=2, max_delay=4)`. -/
def make_substrate_call_with_retry (op : Nat → Except String α) :
    Except String α × Nat × List Nat :=
  retry_go op 2 4 3 2 0 []

/-- Embeds `Subtensor.query_subtensor` (lines 797-807): the substrate
`query` call behind the retry wrapper. -/
def query_subtensor (substrate_query : Nat → Except String α) :
    Except String α × Nat × List Nat :=
  make_substrate_call_with_retry substrate_query

/-- Embeds `Subtensor.query_module` (lines 835-845): same wrapper, generic
module storage query. -/
def query_module (substrate_query : Nat → Except String α) :
    Except String α × Nat × List Nat :=
  make_substrate_call_with_retry substrate_query

/-- Embeds `Subtensor.get_current_block` (lines 1550-1560): the substrate
`get_block_number` call behind the retry wrapper. -/
def get_current_block (get_block_number : Nat → Except String Nat) :
    Except String Nat × Nat × List Nat :=
  make_substrate_call_with_retry get_block_number

/-! ### Weight-commit submission (subtensor_impl.py, lines 171-203) -/

/-- Response returned by `substrate.submit_extrinsic`, as consumed by
`_do_set_weights` (`process_events` exposes `is_success` and
`error_message`). -/
structure SubmitResponse where
  is_success : Bool
  error_message : Option String
  deriving DecidableEq, Repr

/-- Embeds `Subtensor._do_set_weights` (lines 171-203).  The transport is
modelled as the list of responses that successive `substrate.submit_extrinsic`
calls would return; each call to `_do_set_weights` consumes exactly one
(there is no retry loop in the source).  After submission: if neither wait
flag is set the call returns `(True, None)` at once, without inspecting the
response; otherwise `process_events` runs and `is_success` decides between
`(True, None)` and `(False, error_message)`. -/
def _do_set_weights (trace : List SubmitResponse) (uids : List Nat)
    (vals : List Nat) (netuid : Nat) (version_key : Nat)
    (wait_for_inclusion wait_for_finalization : Bool) :
    Option ((Bool × Option String) × List SubmitResponse) :=
  match trace with
  | [] => none
  | response :: rest =>
    if !wait_for_finalization && !wait_for_inclusion then
      some ((true, none), rest)
    else if response.is_success then
      some ((true, none), rest)
    else
      some ((false, response.error_message), rest)

/-! ### Basic lemmas about the stepping loop -/

lemma normalize_scores_length (s : List ℚ) :
    (normalize_scores s).length = s.length := by
  simp [normalize_scores]

lemma zipWith_add_replicate_zero :
    ∀ (v : List ℚ) (n : Nat), v.length = n →
      List.zipWith (· + ·) v (List.replicate n 0) = v := by
  intro v
  induction v with
  | nil => intro n _; simp
  | cons x xs ih =>
    intro n hn
    cases n with
    | zero => simp at hn
    | succ k =>
      simp only [List.length_cons, Nat.succ.injEq] at hn
      simp [List.replicate_succ, ih k hn]

lemma sum_stack_singleton (n : Nat) (v : List ℚ) (hv : v.length = n) :
    sum_stack n [v] = v := by
  simp [sum_stack, zipWith_add_replicate_zero v n hv]

lemma mean_stack_singleton (n : Nat) (v : List ℚ) (hv : v.length = n) :
    mean_stack n [v] = v := by
  simp [mean_stack, sum_stack_singleton n v hv]

lemma epoch_loop_fold (n : Nat) :
    ∀ (steps : List (List ℚ)) (hist : List (List ℚ)) (m : List ℚ),
      steps ≠ [] →
      steps.foldl (fun st raw => epoch_step n st.1 raw) (hist, m) =
        (hist ++ steps.map normalize_scores,
         mean_stack n (hist ++ steps.map normalize_scores)) := by
  intro steps
  induction steps with
  | nil => intro hist m h; exact absurd rfl h
  | cons s rest ih =>
    intro hist m _
    by_cases hrest : rest = []
    · subst hrest
      simp [epoch_step]
    · rw [List.foldl_cons]
      have hstep : epoch_step n hist s =
          (hist ++ [normalize_scores s],
           mean_stack n (hist ++ [normalize_scores s])) := rfl
      rw [hstep, ih (hist ++ [normalize_scores s]) _ hrest]
      simp

lemma run_epoch_loop_eq (n : Nat) (steps : List (List ℚ)) :
    run_epoch_loop n steps =
      (steps.map normalize_scores,
       mean_stack n (steps.map normalize_scores)) := by
  by_cases h : steps = []
  · subst h; simp [run_epoch_loop]
  · simpa [run_epoch_loop] using epoch_loop_fold n steps [] (mean_stack n []) h

lemma forward_scores_absent (n uid : Nat) (queried : List Nat)
    (uL : ℚ) (mL : Nat → ℚ) (huid : uid < n) (habsent : uid ∉ queried) :
    (forward_scores n queried uL mL).getD uid 0 = 0 := by
  have hlen : uid < (forward_scores n queried uL mL).length := by
    simpa [forward_scores] using huid
  rw [List.getD_eq_getElem _ _ hlen]
  simp [forward_scores, habsent]

lemma normalize_scores_absent (n uid : Nat) (queried : List Nat)
    (uL : ℚ) (mL : Nat → ℚ) (huid : uid < n) (habsent : uid ∉ queried) :
    (normalize_scores (forward_scores n queried uL mL)).getD uid 0 = 0 := by
  have hlen : uid < (forward_scores n queried uL mL).length := by
    simpa [forward_scores] using huid
  have hlen2 : uid < (normalize_scores (forward_scores n queried uL mL)).length := by
    simpa [normalize_scores_length]
  rw [List.getD_eq_getElem _ _ hlen2]
  have h0 : (forward_scores n queried uL mL)[uid] = 0 := by
    have := forward_scores_absent n uid queried uL mL huid habsent
    rwa [List.getD_eq_getElem _ _ hlen] at this
  simp [normalize_scores, h0]

/-- C4: after every step of an epoch, `moving_avg_scores` equals the
elementwise mean over all per-step score mappings appended to
`score_history` so far (no exponential decay); a peer absent from a step's
queried set contributes 0 to that step's appended mapping; and after the
first step the moving average equals that step's scores. -/
theorem c4_moving_average_fresh_mean (n : Nat) (steps : List (List ℚ))
    (queried : List Nat) (uL : ℚ) (mL : Nat → ℚ) (uid : Nat) (s : List ℚ)
    (huid : uid < n) (habsent : uid ∉ queried) (hs : s.length = n) :
    (∀ k : Nat,
      (run_epoch_loop n (steps.take k)).2 =
        mean_stack n (run_epoch_loop n (steps.take k)).1 ∧
      (run_epoch_loop n (steps.take k)).1 =
        (steps.take k).map normalize_scores) ∧
    (normalize_scores (forward_scores n queried uL mL)).getD uid 0 = 0 ∧
    (run_epoch_loop n [s]).2 = normalize_scores s := by
  refine ⟨fun k => ?_, normalize_scores_absent n uid queried uL mL huid habsent, ?_⟩
  · rw [run_epoch_loop_eq]
    exact ⟨rfl, rfl⟩
  · rw [run_epoch_loop_eq]
    exact mean_stack_singleton n (normalize_scores s)
      (by rw [normalize_scores_length, hs])

/-- Witness for C4 at a concrete input: network of 2 uids, one step with
raw scores `[1, 3]`, uid 1 not queried. -/
theorem c4_moving_average_fresh_mean_witness :
    ((1 : Nat) < 2 ∧ (1 : Nat) ∉ [0] ∧ ([(1 : ℚ), 3]).length = 2) ∧
    ((∀ k : Nat,
      (run_epoch_loop 2 ([[(1 : ℚ), 3]].take k)).2 =
        mean_stack 2 (run_epoch_loop 2 ([[(1 : ℚ), 3]].take k)).1 ∧
      (run_epoch_loop 2 ([[(1 : ℚ), 3]].take k)).1 =
        ([[(1 : ℚ), 3]].take k).map normalize_scores) ∧
    (normalize_scores (forward_scores 2 [0] 0 (fun _ => 0))).getD 1 0 = 0 ∧
    (run_epoch_loop 2 [[(1 : ℚ), 3]]).2 = normalize_scores [(1 : ℚ), 3]) :=
  ⟨⟨by decide, by decide, by decide⟩,
   c4_moving_average_fresh_mean 2 [[(1 : ℚ), 3]] [0] 0 (fun _ => 0) 1
     [(1 : ℚ), 3] (by decide) (by decide) (by decide)⟩

/-! ### C8: determinism of the evaluate-score loop -/

lemma stepsRel_deterministic (n : Nat) :
    ∀ {p : List (List ℚ) × List (List ℚ)} {h1 h2 : List (List ℚ)},
      StepsRel n p h1 → StepsRel n p h2 → h1 = h2 := by
  intro p h1 h2 r1
  induction r1 with
  | done h =>
    intro r2
    cases r2
    rfl
  | step _ ih =>
    intro r2
    cases r2 with
    | step r2tail => exact ih r2tail

/-- C8: two runs of the evaluate-score loop on the same fixed per-step
score data produce the same `score_history` and the same
`moving_avg_scores` — the scoring path introduces no other source of
nondeterminism. -/
theorem c8_scoring_deterministic (n : Nat) (ins : List (List ℚ))
    (h1 h2 : List (List ℚ))
    (r1 : StepsRel n (ins, []) h1) (r2 : StepsRel n (ins, []) h2) :
    h1 = h2 ∧ mean_stack n h1 = mean_stack n h2 := by
  have h := stepsRel_deterministic n r1 r2
  exact ⟨h, by rw [h]⟩

/-- Witness for C8 at a concrete input: one step with raw scores `[1, 1]`
on a 2-peer network, run twice. -/
theorem c8_scoring_deterministic_witness :
    (StepsRel 2 ([[(1 : ℚ), 1]], []) [normalize_scores [(1 : ℚ), 1]] ∧
     StepsRel 2 ([[(1 : ℚ), 1]], []) [normalize_scores [(1 : ℚ), 1]]) ∧
    ([normalize_scores [(1 : ℚ), 1]] = [normalize_scores [(1 : ℚ), 1]] ∧
     mean_stack 2 [normalize_scores [(1 : ℚ), 1]] =
       mean_stack 2 [normalize_scores [(1 : ℚ), 1]]) :=
  have r : StepsRel 2 ([[(1 : ℚ), 1]], []) [normalize_scores [(1 : ℚ), 1]] :=
    StepsRel.step (StepsRel.done _)
  ⟨⟨r, r⟩, c8_scoring_deterministic 2 [[(1 : ℚ), 1]] _ _ r r⟩

/-! ### C6, C7: weight-commit submission -/

/-- C6: with both wait flags false, `_do_set_weights` returns success with
no error as soon as the transaction is handed to the transport layer,
whatever the transport's response would have said; hence two consecutive
fire-and-forget commits of the identical `(uids, weights)` both report
success and never error. -/
theorem c6_fire_and_forget_commit (r1 r2 : SubmitResponse)
    (rest : List SubmitResponse) (uids vals : List Nat)
    (netuid version_key : Nat) :
    _do_set_weights (r1 :: r2 :: rest) uids vals netuid version_key
        false false = some ((true, none), r2 :: rest) ∧
    _do_set_weights (r2 :: rest) uids vals netuid version_key
        false false = some ((true, none), rest) :=
  ⟨rfl, rfl⟩

/-- C7: whenever at least one of the wait flags is set and the ledger
rejects the transaction, `_do_set_weights` returns
`(False, error_message)`; exactly one transport submission is consumed
(the returned trace is the untouched tail), i.e. zero retries. -/
theorem c7_rejection_surfaced_once (response : SubmitResponse)
    (rest : List SubmitResponse) (uids vals : List Nat)
    (netuid version_key : Nat)
    (wait_for_inclusion wait_for_finalization : Bool)
    (hwait : wait_for_inclusion || wait_for_finalization = true)
    (hrej : response.is_success = false) :
    _do_set_weights (response :: rest) uids vals netuid version_key
        wait_for_inclusion wait_for_finalization =
      some ((false, response.error_message), rest) := by
  cases wait_for_inclusion <;> cases wait_for_finalization <;>
    simp_all [_do_set_weights]

/-- Witness for C7: waiting for inclusion only, a ledger rejection with
message "InsufficientStake" yields `success = false`,
`error = "InsufficientStake"`. -/
theorem c7_rejection_surfaced_once_witness :
    ((true || false) = true ∧
     (SubmitResponse.mk false (some "InsufficientStake")).is_success = false) ∧
    _do_set_weights [SubmitResponse.mk false (some "InsufficientStake")]
        [0] [65535] 1 0 true false =
      some ((false, some "InsufficientStake"), []) :=
  ⟨⟨rfl, rfl⟩, c7_rejection_surfaced_once
    (SubmitResponse.mk false (some "InsufficientStake")) [] [0] [65535] 1 0
    true false rfl rfl⟩

/-! ### C5: retry policy on transport-transient failures -/

lemma retry_go_all_fail (op : Nat → Except String α) (e : Nat → String)
    (hfail : ∀ k, op k = Except.error (e k)) :
    retry_go op 2 4 3 2 0 [] = (Except.error (e 2), 3, [2, 4]) := by
  have h0 := hfail 0
  have h1 := hfail 1
  have h2 := hfail 2
  simp [retry_go, h0, h1, h2]

/-- C5: every retry-wrapped chain query (`query_subtensor`, `query_module`,
`get_current_block`) retries a transport-transient failure up to exactly 3
attempts, sleeping the backoff delays 2 then `min (2*2) 4 = 4` (base delay
2, multiplier 2, cap 4 — non-decreasing), and then surfaces the third
attempt's failure to the caller. -/
theorem c5_retry_three_attempts (sq mq : Nat → Except String α)
    (gbn : Nat → Except String Nat) (e1 e2 e3 : Nat → String)
    (hsq : ∀ k, sq k = Except.error (e1 k))
    (hmq : ∀ k, mq k = Except.error (e2 k))
    (hgbn : ∀ k, gbn k = Except.error (e3 k)) :
    query_subtensor sq = (Except.error (e1 2), 3, [2, 4]) ∧
    query_module mq = (Except.error (e2 2), 3, [2, 4]) ∧
    get_current_block gbn = (Except.error (e3 2), 3, [2, 4]) ∧
    List.Chain' (· ≤ ·) [2, 4] :=
  ⟨retry_go_all_fail sq e1 hsq, retry_go_all_fail mq e2 hmq,
   retry_go_all_fail gbn e3 hgbn, by norm_num [List.chain'_cons]⟩

/-- Witness for C5: a substrate endpoint that times out on every attempt. -/
theorem c5_retry_three_attempts_witness :
    ((∀ k : Nat, (fun _ : Nat => (Except.error "WebSocketTimeout" :
        Except String Nat)) k = Except.error "WebSocketTimeout") ∧
     (∀ k : Nat, (fun _ : Nat => (Except.error "WebSocketTimeout" :
        Except String Nat)) k = Except.error "WebSocketTimeout")) ∧
    (query_subtensor (fun _ => (Except.error "WebSocketTimeout" :
        Except String Nat)) = (Except.error "WebSocketTimeout", 3, [2, 4]) ∧
     query_module (fun _ => (Except.error "WebSocketTimeout" :
        Except String Nat)) = (Except.error "WebSocketTimeout", 3, [2, 4]) ∧
     get_current_block (fun _ => Except.error "WebSocketTimeout") =
        (Except.error "WebSocketTimeout", 3, [2, 4]) ∧
     List.Chain' (· ≤ ·) [2, 4]) :=
  ⟨⟨fun _ => rfl, fun _ => rfl⟩,
   c5_retry_three_attempts
     (fun _ => (Except.error "WebSocketTimeout" : Except String Nat))
     (fun _ => (Except.error "WebSocketTimeout" : Except String Nat))
     (fun _ => Except.error "WebSocketTimeout")
     (fun _ => "WebSocketTimeout") (fun _ => "WebSocketTimeout")
     (fun _ => "WebSocketTimeout")
     (fun _ => rfl) (fun _ => rfl) (fun _ => rfl)⟩

/-! ### C2: per-step marginal score formula -/

/-- C2 (amended): for every queried peer `p`, the per-step score returned
by the scoring pass equals `U(J) − U(J₋p)` — the negation of the claimed
`U(J₋p) − U(J)` — where `U` is the higher-is-better utility of an
aggregate, i.e. the negated decoding loss. -/
theorem c2_score_is_utility_drop (n : Nat) (queried : List Nat)
    (unmasked_loss : ℚ) (masked_loss : Nat → ℚ) (p : Nat)
    (hp : p ∈ queried) (hn : p < n) :
    (forward_scores n queried unmasked_loss masked_loss).getD p 0 =
      utilityOfLoss unmasked_loss - utilityOfLoss (masked_loss p) := by
  have hlen : p < (forward_scores n queried unmasked_loss masked_loss).length := by
    simpa [forward_scores] using hn
  rw [List.getD_eq_getElem _ _ hlen]
  simp only [forward_scores, List.getElem_map, List.getElem_range, hp,
    if_pos, utilityOfLoss]
  ring

/-- Witness for C2 (amended) at the spec's Scenario B numbers read as
utilities: `U(J) = 1/2`, `U(J₋1) = 3/5` (peer uid 0), `U(J₋2) = 2/5`
(peer uid 1), encoded as losses `-1/2`, `-3/5`, `-2/5`. -/
theorem c2_score_is_utility_drop_witness :
    ((0 : Nat) ∈ [0, 1] ∧ (0 : Nat) < 2) ∧
    (forward_scores 2 [0, 1] (-(1 / 2))
        (fun u => if u = 0 then -(3 / 5) else -(2 / 5))).getD 0 0 =
      utilityOfLoss (-(1 / 2)) -
        utilityOfLoss ((fun u : Nat => if u = 0 then -((3 : ℚ) / 5)
          else -(2 / 5)) 0) :=
  ⟨⟨by decide, by decide⟩,
   c2_score_is_utility_drop 2 [0, 1] (-(1 / 2))
     (fun u => if u = 0 then -(3 / 5) else -(2 / 5)) 0
     (by decide) (by decide)⟩

/-- Counterexample for C2 as stated: at the spec's Scenario B numbers
(`U(J) = 1/2`, `U(J₋1) = 3/5`, `U(J₋2) = 2/5`, encoded as negated losses)
the code returns score `-1/10` for the first peer and `1/10` for the
second — not the claimed `U(J₋p) − U(J)`, which would be `1/10` and
`-1/10`. -/
theorem c2_counterexample_sign_flipped :
    utilityOfLoss (-(1 / 2) : ℚ) = 1 / 2 ∧
    utilityOfLoss (-(3 / 5) : ℚ) = 3 / 5 ∧
    utilityOfLoss (-(2 / 5) : ℚ) = 2 / 5 ∧
    (forward_scores 2 [0, 1] (-(1 / 2))
        (fun u => if u = 0 then -(3 / 5) else -(2 / 5))).getD 0 0 = -(1 / 10) ∧
    (forward_scores 2 [0, 1] (-(1 / 2))
        (fun u => if u = 0 then -(3 / 5) else -(2 / 5))).getD 1 0 = 1 / 10 ∧
    (forward_scores 2 [0, 1] (-(1 / 2))
        (fun u => if u = 0 then -(3 / 5) else -(2 / 5))).getD 0 0 ≠
      utilityOfLoss (-(3 / 5) : ℚ) - utilityOfLoss (-(1 / 2) : ℚ) := by
  refine ⟨by norm_num [utilityOfLoss], by norm_num [utilityOfLoss],
    by norm_num [utilityOfLoss], ?_, ?_, ?_⟩ <;>
    norm_num [forward_scores, utilityOfLoss, List.range_succ, List.getD]

/-! ### C1: committing derives the weight vector by unfiltered top-K -/

/-- C1 (amended): the WeightVector submitted by the Committing phase is
derived from `moving_avg_scores` by top-K selection with
`K = min(n_topk_peer_weights, peer_count)` applied directly to the moving
average: the selected uids are `K` distinct valid uids, every selected uid
ranks at least as high as every unselected one, and the weights are the
selected uids' moving-average entries.  No negative-score exclusion
precedes the selection. -/
theorem c1_commit_unfiltered_topk (mavg : List ℚ) (cfg : Nat) (u j : Nat)
    (hu : u ∈ (run_epoch_commit mavg cfg).uids)
    (hj : j < mavg.length)
    (hnj : j ∉ (run_epoch_commit mavg cfg).uids) :
    (run_epoch_commit mavg cfg).uids.length = min cfg mavg.length ∧
    (run_epoch_commit mavg cfg).uids.Nodup ∧
    u < mavg.length ∧
    scoreGE mavg u j ∧
    (run_epoch_commit mavg cfg).weights =
      (run_epoch_commit mavg cfg).uids.map (fun x => mavg.getD x 0) := by
  have huids : (run_epoch_commit mavg cfg).uids =
      (List.insertionSort (scoreGE mavg) (List.range mavg.length)).take
        (min cfg mavg.length) := rfl
  have hperm : List.Perm
      (List.insertionSort (scoreGE mavg) (List.range mavg.length))
      (List.range mavg.length) := List.perm_insertionSort _ _
  have hslen : (List.insertionSort (scoreGE mavg)
      (List.range mavg.length)).length = mavg.length := by
    rw [hperm.length_eq, List.length_range]
  have hSorted : List.Sorted (scoreGE mavg)
      (List.insertionSort (scoreGE mavg) (List.range mavg.length)) :=
    List.sorted_insertionSort _ _
  refine ⟨?_, ?_, ?_, ?_, rfl⟩
  · rw [huids, List.length_take, hslen]
    omega
  · rw [huids]
    exact (List.take_sublist _ _).nodup
      (hperm.nodup_iff.mpr (List.nodup_range _))
  · rw [huids] at hu
    have := hperm.mem_iff.mp (List.mem_of_mem_take hu)
    exact List.mem_range.mp this
  · rw [huids] at hu hnj
    have hjmem : j ∈ List.insertionSort (scoreGE mavg)
        (List.range mavg.length) :=
      hperm.mem_iff.mpr (List.mem_range.mpr hj)
    have hjdrop : j ∈ (List.insertionSort (scoreGE mavg)
        (List.range mavg.length)).drop (min cfg mavg.length) := by
      rw [← List.take_append_drop (min cfg mavg.length)
        (List.insertionSort (scoreGE mavg) (List.range mavg.length))] at hjmem
      rcases List.mem_append.mp hjmem with h | h
      · exact absurd h hnj
      · exact h
    exact hSorted.rel_of_mem_take_of_mem_drop hu hjdrop

/-- Witness for C1 (amended): moving average `[3, -1]`, configured top-K 1:
uid 0 is selected, uid 1 is not. -/
theorem c1_commit_unfiltered_topk_witness :
    ((0 : Nat) ∈ (run_epoch_commit [3, -1] 1).uids ∧ (1 : Nat) < 2 ∧
     (1 : Nat) ∉ (run_epoch_commit [3, -1] 1).uids) ∧
    ((run_epoch_commit [3, -1] 1).uids.length = min 1 ([3, -1] : List ℚ).length ∧
     (run_epoch_commit [3, -1] 1).uids.Nodup ∧
     (0 : Nat) < ([3, -1] : List ℚ).length ∧
     scoreGE [3, -1] 0 1 ∧
     (run_epoch_commit [3, -1] 1).weights =
       (run_epoch_commit [3, -1] 1).uids.map
         (fun x => ([3, -1] : List ℚ).getD x 0)) :=
  ⟨⟨by decide, by decide, by decide⟩,
   c1_commit_unfiltered_topk [3, -1] 1 0 1 (by decide) (by decide) (by decide)⟩

/-- Counterexample for C1 as stated: with moving average `[3, -1]` and
configured top-K 2, the peer with uid 1 has a negative moving-average
score, yet it is selected and its negative score is submitted — negative
scores are not excluded before the top-K selection. -/
theorem c1_counterexample_negative_selected :
    ([3, -1] : List ℚ).getD 1 0 < 0 ∧
    (1 : Nat) ∈ (run_epoch_commit [3, -1] 2).uids ∧
    (run_epoch_commit [3, -1] 2).weights = [3, -1] := by
  refine ⟨by norm_num, by decide, by decide⟩

/-! ### C3: weights handed to the ledger commit -/

lemma sum_stack_nil (n : Nat) : sum_stack n [] = List.replicate n 0 := rfl

lemma sum_stack_cons (n : Nat) (v : List ℚ) (t : List (List ℚ)) :
    sum_stack n (v :: t) = List.zipWith (· + ·) v (sum_stack n t) := rfl

lemma sum_map_div (l : List ℚ) (c : ℚ) :
    (l.map fun x => x / c).sum = l.sum / c := by
  induction l with
  | nil => simp
  | cons x xs ih => simp [ih, add_div]

lemma normalize_scores_sum (s : List ℚ) (h : s.sum ≠ 0) :
    (normalize_scores s).sum = 1 := by
  simp [normalize_scores, sum_map_div, div_self h]

lemma sum_stack_len (n : Nat) :
    ∀ (h : List (List ℚ)), (∀ v ∈ h, v.length = n) →
      (sum_stack n h).length = n := by
  intro h
  induction h with
  | nil => intro _; simp [sum_stack_nil]
  | cons v t ih =>
    intro hl
    have hv : v.length = n := hl v (by simp)
    have ht := ih fun w hw => hl w (by simp [hw])
    rw [sum_stack_cons, List.length_zipWith, hv, ht, Nat.min_self]

lemma sum_zipWith_add :
    ∀ (v w : List ℚ), v.length = w.length →
      (List.zipWith (· + ·) v w).sum = v.sum + w.sum := by
  intro v
  induction v with
  | nil =>
    intro w hw
    cases w with
    | nil => simp
    | cons y ys => simp at hw
  | cons x xs ih =>
    intro w hw
    cases w with
    | nil => simp at hw
    | cons y ys =>
      simp only [List.zipWith_cons_cons, List.sum_cons]
      rw [ih ys (by simpa using hw)]
      ring

lemma sum_stack_sum (n : Nat) :
    ∀ (h : List (List ℚ)), (∀ v ∈ h, v.length = n) →
      (sum_stack n h).sum = (h.map List.sum).sum := by
  intro h
  induction h with
  | nil => intro _; simp [sum_stack_nil]
  | cons v t ih =>
    intro hl
    have hv := hl v (by simp)
    have htl : ∀ w ∈ t, w.length = n := fun w hw => hl w (by simp [hw])
    rw [sum_stack_cons,
      sum_zipWith_add v _ (by rw [hv, sum_stack_len n t htl]), ih htl]
    simp

lemma sum_map_sum_ones :
    ∀ (h : List (List ℚ)), (∀ v ∈ h, v.sum = 1) →
      (h.map List.sum).sum = (h.length : ℚ) := by
  intro h
  induction h with
  | nil => intro _; simp
  | cons v t ih =>
    intro hl
    have hv := hl v (by simp)
    rw [List.map_cons, List.sum_cons, hv, ih fun w hw => hl w (by simp [hw]),
      List.length_cons]
    push_cast
    ring

lemma mean_stack_sum (n : Nat) (h : List (List ℚ)) (hne : h ≠ [])
    (hlen : ∀ v ∈ h, v.length = n) (hsum : ∀ v ∈ h, v.sum = 1) :
    (mean_stack n h).sum = 1 := by
  have hl0 : h.length ≠ 0 := by simpa [List.length_eq_zero] using hne
  have hl : (h.length : ℚ) ≠ 0 := Nat.cast_ne_zero.mpr hl0
  rw [mean_stack, sum_map_div, sum_stack_sum n h hlen,
    sum_map_sum_ones h hsum, div_self hl]

/-- C3 (amended): the moving average itself sums to 1 whenever the epoch
had at least one step and no step's raw score sum was zero (each appended
per-step mapping is normalized to sum 1), and the WeightVector handed to
the ledger commit has parallel uid/weight lists whose weights are the
selected uids' moving-average entries — but it is the unrenormalized top-K
sub-vector, which need not sum to 1 and may contain negative entries. -/
theorem c3_commit_weights_unnormalized (n : Nat) (steps : List (List ℚ))
    (cfg : Nat) (hne : steps ≠ [])
    (hlen : ∀ s ∈ steps, s.length = n)
    (hsum : ∀ s ∈ steps, s.sum ≠ 0) :
    ((run_epoch_loop n steps).2).sum = 1 ∧
    (run_epoch_commit (run_epoch_loop n steps).2 cfg).uids.length =
      (run_epoch_commit (run_epoch_loop n steps).2 cfg).weights.length ∧
    (run_epoch_commit (run_epoch_loop n steps).2 cfg).weights =
      (run_epoch_commit (run_epoch_loop n steps).2 cfg).uids.map
        (fun u => ((run_epoch_loop n steps).2).getD u 0) := by
  refine ⟨?_, (List.length_map _ _).symm, rfl⟩
  rw [run_epoch_loop_eq]
  refine mean_stack_sum n _ (by simpa using hne) ?_ ?_
  · intro v hv
    obtain ⟨s, hs, rfl⟩ := List.mem_map.mp hv
    rw [normalize_scores_length]
    exact hlen s hs
  · intro v hv
    obtain ⟨s, hs, rfl⟩ := List.mem_map.mp hv
    exact normalize_scores_sum s (hsum s hs)

/-- Witness for C3 (amended): one step with raw scores `[3, 1]` on a
2-peer network, configured top-K 1. -/
theorem c3_commit_weights_unnormalized_witness :
    (([[(3 : ℚ), 1]] : List (List ℚ)) ≠ [] ∧
     (∀ s ∈ ([[(3 : ℚ), 1]] : List (List ℚ)), s.length = 2) ∧
     (∀ s ∈ ([[(3 : ℚ), 1]] : List (List ℚ)), s.sum ≠ 0)) ∧
    (((run_epoch_loop 2 [[(3 : ℚ), 1]]).2).sum = 1 ∧
     (run_epoch_commit (run_epoch_loop 2 [[(3 : ℚ), 1]]).2 1).uids.length =
       (run_epoch_commit (run_epoch_loop 2 [[(3 : ℚ), 1]]).2 1).weights.length ∧
     (run_epoch_commit (run_epoch_loop 2 [[(3 : ℚ), 1]]).2 1).weights =
       (run_epoch_commit (run_epoch_loop 2 [[(3 : ℚ), 1]]).2 1).uids.map
         (fun u => ((run_epoch_loop 2 [[(3 : ℚ), 1]]).2).getD u 0)) :=
  have h1 : ([[(3 : ℚ), 1]] : List (List ℚ)) ≠ [] := by decide
  have h2 : ∀ s ∈ ([[(3 : ℚ), 1]] : List (List ℚ)), s.length = 2 := by decide
  have h3 : ∀ s ∈ ([[(3 : ℚ), 1]] : List (List ℚ)), s.sum ≠ 0 := by
    intro s hs
    rw [List.mem_singleton] at hs
    subst hs
    norm_num
  ⟨⟨h1, h2, h3⟩, c3_commit_weights_unnormalized 2 [[(3 : ℚ), 1]] 1 h1 h2 h3⟩

/-- Counterexample for C3 as stated: after one step with raw scores
`[3, 1]` (moving average `[3/4, 1/4]`) and configured top-K 1, the
WeightVector handed to the commit is `([0], [3/4])`: nonempty, yet its
weights sum to `3/4`, which misses 1 by far more than the 1e-6
tolerance. -/
theorem c3_counterexample_sum_not_one :
    (run_epoch_commit (run_epoch_loop 2 [[(3 : ℚ), 1]]).2 1).uids = [0] ∧
    (run_epoch_commit (run_epoch_loop 2 [[(3 : ℚ), 1]]).2 1).weights = [3 / 4] ∧
    ¬ |(run_epoch_commit (run_epoch_loop 2 [[(3 : ℚ), 1]]).2 1).weights.sum - 1|
        ≤ 1 / 1000000 := by
  have hm : (run_epoch_loop 2 [[(3 : ℚ), 1]]).2 = [3 / 4, 1 / 4] := by
    simp [run_epoch_loop, epoch_step, normalize_scores, mean_stack, sum_stack]
    norm_num
  rw [hm]
  have hc : run_epoch_commit [(3 : ℚ) / 4, 1 / 4] 1 =
      WeightVector.mk [0] [3 / 4] := by
    have hr : scoreGE [(3 : ℚ) / 4, 4⁻¹] 0 1 := by
      norm_num [scoreGE]
    simp [run_epoch_commit, unbiased_topk, List.range_succ, List.insertionSort,
      List.orderedInsert, hr]
  rw [hc]
  refine ⟨rfl, rfl, ?_⟩
  norm_num [abs_le]

/-! ### C9: empty registry sync -/

/-- C9 (amended): when the registry sync yields an empty peer set, the
selection step fails (`torch.cat` over the empty list of per-uid gate
outputs raises) rather than returning an empty subset, so the epoch
aborts before any commit; independently, the Committing phase contains no
skip branch — it always hands a WeightVector to `set_weights`, and with
an empty moving average that vector is the empty commit, submitted rather
than skipped. -/
theorem c9_empty_pool_errors (uids : List Nat) (g : Nat → ℚ) (cfg : Nat)
    (hempty : uids = []) :
    routing_weights_cat uids g =
      Except.error "torch.cat(): expected a non-empty list of Tensors" ∧
    (∀ mavg k, run_epoch_submitted_commit mavg k ≠ none) ∧
    run_epoch_submitted_commit [] cfg = some (WeightVector.mk [] []) := by
  subst hempty
  refine ⟨rfl, fun mavg k => by simp [run_epoch_submitted_commit], ?_⟩
  simp [run_epoch_submitted_commit, run_epoch_commit, unbiased_topk]

/-- Witness for C9 (amended) at the empty uid list. -/
theorem c9_empty_pool_errors_witness :
    (([] : List Nat) = []) ∧
    (routing_weights_cat [] (fun _ => 0) =
      Except.error "torch.cat(): expected a non-empty list of Tensors" ∧
    (∀ mavg k, run_epoch_submitted_commit mavg k ≠ none) ∧
    run_epoch_submitted_commit [] 5 = some (WeightVector.mk [] [])) :=
  ⟨rfl, c9_empty_pool_errors [] (fun _ => 0) 5 rfl⟩

/-- Counterexample for C9 as stated: with an empty peer set the selection
does not return the empty subset without error — the routing-weight
concatenation fails. -/
theorem c9_counterexample_empty_selection_error :
    routing_weights_cat [] (fun _ => 0) ≠ Except.ok [] ∧
    routing_weights_cat [] (fun _ => 0) =
      Except.error "torch.cat(): expected a non-empty list of Tensors" :=
  ⟨fun h => Except.noConfusion h, rfl⟩

/-! ### C10: preallocated gate table -/

lemma forward_gate_reads_ok (gates : List Nat) :
    ∀ (l : List Nat), (∀ u ∈ l, u ∈ gates) →
      forward_gate_reads gates l = Except.ok gates := by
  intro l
  induction l with
  | nil => intro _; rfl
  | cons v rest ih =>
    intro hl
    have hv : v ∈ gates := hl v (by simp)
    simp only [forward_gate_reads, gate_lookup, if_pos hv]
    exact ih fun u hu => hl u (by simp [hu])

lemma forward_gate_reads_err (gates : List Nat) :
    ∀ (l : List Nat) (u : Nat), u ∈ l → u ∉ gates →
      forward_gate_reads gates l = Except.error "KeyError" := by
  intro l
  induction l with
  | nil => intro u hu _; simp at hu
  | cons v rest ih =>
    intro u hu hnot
    by_cases hv : v ∈ gates
    · have hur : u ∈ rest := by
        rcases List.mem_cons.mp hu with rfl | h
        · exact absurd hv hnot
        · exact h
      simp only [forward_gate_reads, gate_lookup, if_pos hv]
      exact ih u hur hnot
    · simp only [forward_gate_reads, gate_lookup, if_neg hv]

/-- C10 (amended): the per-uid gate table is preallocated for exactly the
uids 0 through 1999 at construction and reads never grow it; for any
network uid set containing a uid ≥ 2000 the scoring forward pass fails on
the gate lookup (KeyError) instead of creating a gate lazily — while the
weight-reset routine iterates only the 2000 preallocated uids, never
consults the network's uid set, and succeeds with the table unchanged. -/
theorem c10_gate_table_fixed (netUids : List Nat) (u : Nat)
    (hu : u ∈ netUids) (hge : 2000 ≤ u) :
    gates_keys = List.range 2000 ∧
    forward_gate_reads gates_keys netUids = Except.error "KeyError" ∧
    reset_weights gates_keys = Except.ok gates_keys := by
  refine ⟨rfl, ?_, ?_⟩
  · refine forward_gate_reads_err gates_keys netUids u hu ?_
    simp only [gates_keys, List.mem_range]
    omega
  · exact forward_gate_reads_ok gates_keys (List.range 2000)
      fun x hx => by simpa [gates_keys] using hx

/-- Witness for C10 (amended): network uid set `[2000]`. -/
theorem c10_gate_table_fixed_witness :
    ((2000 : Nat) ∈ [2000] ∧ (2000 : Nat) ≤ 2000) ∧
    (gates_keys = List.range 2000 ∧
     forward_gate_reads gates_keys [2000] = Except.error "KeyError" ∧
     reset_weights gates_keys = Except.ok gates_keys) :=
  ⟨⟨by decide, by decide⟩,
   c10_gate_table_fixed [2000] 2000 (by decide) (by decide)⟩

/-- Counterexample for C10 as stated: for the network uid set `[2000]` the
forward pass does fail on the gate lookup, but the weight-reset routine
does not fail — it touches only the preallocated uids 0..1999. -/
theorem c10_counterexample_reset_succeeds :
    ((2000 : Nat) ∈ [2000] ∧ (2000 : Nat) ≤ 2000) ∧
    reset_weights gates_keys = Except.ok gates_keys ∧
    forward_gate_reads gates_keys [2000] = Except.error "KeyError" :=
  ⟨⟨by decide, by decide⟩,
   forward_gate_reads_ok gates_keys (List.range 2000)
     (fun x hx => by simpa [gates_keys] using hx),
   forward_gate_reads_err gates_keys [2000] 2000 (by decide)
     (by simp [gates_keys, List.mem_range])⟩
